import Mathlib

/-!
Verification of the append-and-reconcile core of the `autostrom` EV-charging
ledger application (`src/app/main.py`).

The embedding models:
* Python's built-in `round` (round-half-to-even) on exact rational values,
  and `round(x, 2)` as rounding at scale 100;
* Python's `int()` truncation toward zero;
* the f-string formats `{x:.6f}`, `{int}`, and `d.strftime("%d.%m.%Y")`;
* the TSV ledger store (`read_tsv_text` / `write_tsv_text`) as an optional
  text content (`none` = backing resource absent), with the lazy
  header-initialisation of `read_tsv_text`;
* `load_df` (pandas `read_csv(sep="\t")` restricted to the behaviours the
  ledger exercises: header line = first non-blank line, blank lines skipped,
  a data row longer than the header is a parse error, required-column check);
* `append_row` and the `/delete-last` handler `delete_last_entry`.

Numbers are modelled as exact rationals (`ℚ`); text as `List Char`, with
line splitting on `'\n'` (the only line terminator the application writes).
-/

deriving instance DecidableEq for Except

namespace Autostrom

/-! ### Python-style rounding and truncation -/

/-- Python's built-in `round` to an integer: round half to even. -/
def pyRound (q : ℚ) : ℤ :=
  if q - ⌊q⌋ < 1/2 then ⌊q⌋
  else if 1/2 < q - ⌊q⌋ then ⌊q⌋ + 1
  else if ⌊q⌋ % 2 = 0 then ⌊q⌋ else ⌊q⌋ + 1

/-- Python's `round(x, 2)`: round half to even at scale 100. -/
def pyRound2 (q : ℚ) : ℚ := (pyRound (q * 100) : ℚ) / 100

/-- Python's `int()` on a number: truncation toward zero. -/
def pyInt (q : ℚ) : ℤ := if q < 0 then ⌈q⌉ else ⌊q⌋

/-! ### Text primitives

Python `str.splitlines` restricted to `'\n'` separators (the application
only ever writes `'\n'`), `"\n".join`, `str.split(sep)`, and
`str.rstrip("\n")`. -/

/-- `str.splitlines()` for LF-only text: `"a\nb\n" ↦ ["a","b"]`,
`"a\nb" ↦ ["a","b"]`, `"" ↦ []`. -/
def splitlinesLF : List Char → List (List Char)
  | [] => []
  | c :: cs =>
    if c = '\n' then [] :: splitlinesLF cs
    else
      match splitlinesLF cs with
      | [] => [[c]]
      | l :: ls => (c :: l) :: ls

/-- `"\n".join(lines)`. -/
def joinNL : List (List Char) → List Char
  | [] => []
  | [l] => l
  | l :: ls => l ++ '\n' :: joinNL ls

/-- `str.split(sep)` for a one-character separator:
`"a\tb" ↦ ["a","b"]`, `"" ↦ [""]`. -/
def splitOn (sep : Char) : List Char → List (List Char)
  | [] => [[]]
  | c :: cs =>
    if c = sep then [] :: splitOn sep cs
    else
      match splitOn sep cs with
      | [] => [[c]]
      | l :: ls => (c :: l) :: ls

/-- `str.rstrip("\n")`: remove all trailing newline characters. -/
def rstripNL (s : List Char) : List Char :=
  (s.reverse.dropWhile (fun c => c = '\n')).reverse

/-- The ASCII whitespace characters stripped by Python's `str.strip()`
(the ledger never contains non-ASCII whitespace). -/
def isPySpace (c : Char) : Bool :=
  c = ' ' || c = '\t' || c = '\n' || c = '\r' || c = '\x0b' || c = '\x0c'

/-! ### Number and date formatting -/

/-- The decimal digit character for `d % 10`. -/
def digitCh (d : ℕ) : Char := Char.ofNat (48 + d % 10)

/-- Auxiliary fuel-based most-significant-first decimal digit rendering. -/
def natDigitsAux : ℕ → ℕ → List Char
  | 0, _ => []
  | fuel + 1, n =>
    if n = 0 then [] else natDigitsAux fuel (n / 10) ++ [digitCh (n % 10)]

/-- Decimal rendering of a natural number, `str(n)` for `n : ℕ`. -/
def natDigits (n : ℕ) : List Char :=
  if n = 0 then ['0'] else natDigitsAux (n + 1) n

/-- Left-pad with `'0'` to width `k` (as in `f"{n:0k}"`). -/
def padZeros (k : ℕ) (s : List Char) : List Char :=
  List.replicate (k - s.length) '0' ++ s

/-- `str(z)` / `f"{z}"` for a Python int. -/
def intStr (z : ℤ) : List Char :=
  (if z < 0 then ['-'] else []) ++ natDigits z.natAbs

/-- `f"{q:.6f}"`: fixed-point rendering with 6 fractional digits,
rounding half to even (the sign is taken from the input value). -/
def fmt6 (q : ℚ) : List Char :=
  (if q < 0 then ['-'] else []) ++
    natDigits ((pyRound (|q| * 1000000)).toNat / 1000000) ++
    '.' :: padZeros 6 (natDigits ((pyRound (|q| * 1000000)).toNat % 1000000))

/-- A calendar date as held by `datetime.date` (validity of the submitted
ISO string is outside the modelled core). -/
structure PyDate where
  year : ℕ
  month : ℕ
  day : ℕ
deriving DecidableEq

/-- Zero-padded two-digit field, as `strftime`'s `%d` / `%m`. -/
def pad2 (n : ℕ) : List Char := padZeros 2 (natDigits n)

/-- `d.strftime("%d.%m.%Y")` (glibc renders `%Y` without padding). -/
def fmtDate (d : PyDate) : List Char :=
  pad2 d.day ++ '.' :: (pad2 d.month ++ '.' :: natDigits d.year)

/-- The new ledger line built by `append_row` (`main.py:271-274`):
`f"{datum_str}\t{int(zaehlerstand)}\t{strompreis:.6f}\t{verbrauch}\t{abrechnung:.6f}"`. -/
def formatRow (datumStr : List Char) (zaehlerstand strompreis : ℚ)
    (verbrauch : ℤ) (abrechnung : ℚ) : List Char :=
  datumStr ++ '\t' ::
    (intStr (pyInt zaehlerstand) ++ '\t' ::
      (fmt6 strompreis ++ '\t' ::
        (intStr verbrauch ++ '\t' :: fmt6 abrechnung)))

/-! ### Field parsing (pandas numeric column + `int(...)`) -/

/-- Parse a nonempty all-digit string. -/
def parseNatDigits (s : List Char) : Option ℕ :=
  if !s.isEmpty && s.all Char.isDigit then
    some (s.foldl (fun a c => 10 * a + (c.toNat - 48)) 0)
  else none

/-- Integer part of a decimal literal `digits[.digits]` (truncation,
as `int()` applied to the parsed numeric value). -/
def parseAbsTrunc (s : List Char) : Option ℕ :=
  match splitOn '.' s with
  | [a] => parseNatDigits a
  | [a, b] =>
    if b.all Char.isDigit then
      if a.isEmpty then (if b.isEmpty then none else some 0)
      else parseNatDigits a
    else none
  | _ => none

/-- `int(...)` of a ledger numeric field: optional sign, digits, optional
fractional part; truncation toward zero. -/
def pyIntOfStr (s : List Char) : Option ℤ :=
  match s with
  | '-' :: rest => (parseAbsTrunc rest).map (fun n => -(n : ℤ))
  | _ => (parseAbsTrunc s).map (fun n => (n : ℤ))

/-! ### The ledger store (`read_tsv_text` / `write_tsv_text`)

The backing resource (Nextcloud file or local file) is modelled as an
optional text: `none` means the resource does not exist yet. Both code
paths of `read_tsv_text` initialise an absent resource with the header
line, persist it, and return it. -/

/-- The ledger header line (`main.py:160` / `main.py:175`). -/
def headerText : List Char :=
  "Datum\tZaehlerstand\tStrompreis\tVerbrauch\tAbrechnung\n".data

/-- The ledger store: the single configured backing resource. -/
structure Store where
  content : Option (List Char)
deriving DecidableEq

/-- `read_tsv_text()` (`main.py:155-177`): returns the full contents,
initialising an absent resource with the header line and persisting it. -/
def read_tsv_text (st : Store) : List Char × Store :=
  match st.content with
  | none => (headerText, ⟨some headerText⟩)
  | some t => (t, st)

/-- `write_tsv_text(text)` (`main.py:180-193`): full overwrite. -/
def write_tsv_text (_st : Store) (t : List Char) : Store := ⟨some t⟩

/-! ### `load_df` (`main.py:228-253`) -/

/-- The Python exception class an error is raised with. -/
inductive PyType
  | runtimeError
  | valueError
deriving DecidableEq

/-- The failure conditions of `load_df`; in the code all three are raised
as plain `RuntimeError`, differing only in message. -/
inductive LoadErr
  | empty
  | parse
  | missingCols (missing : List (List Char))
deriving DecidableEq

/-- The static prefix of each `load_df` error message (`parse` and
`missingCols` append dynamic detail after the prefix). -/
def loadErrMsg : LoadErr → List Char
  | .empty => "CSV leer (0 Bytes) – von Nextcloud/Datei kam kein Inhalt zurück.".data
  | .parse => "CSV konnte nicht geparst werden: ".data
  | .missingCols _ => "CSV-Spalten fehlen: ".data

/-- The five required ledger columns (`main.py:246`). -/
def requiredCols : List (List Char) :=
  ["Datum".data, "Zaehlerstand".data, "Strompreis".data, "Verbrauch".data,
    "Abrechnung".data]

/-- A parsed ledger: the header's column names and the data rows, each row
its raw tab-separated fields (`pd.read_csv(..., sep="\t")` keeps the first
non-blank line as header and skips blank lines). -/
structure Df where
  columns : List (List Char)
  rows : List (List (List Char))
deriving DecidableEq

/-- `load_df()` (`main.py:228-253`): empty/whitespace-only text is an
error; then the text is parsed (a data row with more fields than the
header is a pandas `ParserError`, re-raised as `RuntimeError`); finally
the five required columns must all be present. -/
def load_df (txt : List Char) : Except LoadErr Df :=
  if txt.all isPySpace then .error .empty
  else
    match (splitlinesLF txt).filter (fun l => !l.isEmpty) with
    | [] => .error .parse
    | header :: rest =>
      let cols := splitOn '\t' header
      let rows := rest.map (splitOn '\t')
      if rows.any (fun r => cols.length < r.length) then .error .parse
      else
        match requiredCols.filter (fun c => !(cols.contains c)) with
        | [] => .ok ⟨cols, rows⟩
        | missing => .error (.missingCols missing)

/-- `int(df.iloc[-1]["Zaehlerstand"]) if not df.empty else 0`
(`main.py:259`): `some 0` for an empty frame, otherwise the last row's
`Zaehlerstand` field read as a truncated integer (`none` when the cell is
absent or non-numeric, where Python would raise). -/
def lastZaehlerOpt (df : Df) : Option ℤ :=
  match df.rows.getLast? with
  | none => some 0
  | some row =>
    match df.columns.findIdx? (fun c => c = "Zaehlerstand".data) with
    | none => none
    | some i =>
      match row[i]? with
      | none => none
      | some cell => pyIntOfStr cell

/-! ### `append_row` (`main.py:256-285`) -/

/-- The failure conditions of `append_row`. -/
inductive AppendErr
  | load (e : LoadErr)
  | outOfRange
  | badField
deriving DecidableEq

/-- The Python exception class of each `append_row` failure: the `load_df`
failures are `RuntimeError`; the range check raises `ValueError`. -/
def AppendErr.pyType : AppendErr → PyType
  | .load _ => .runtimeError
  | .outOfRange => .valueError
  | .badField => .valueError

/-- The message of the `ValueError` raised by the range check
(`main.py:262-265`). -/
def outOfRangeMsg : List Char :=
  ("Der berechnete Verbrauch liegt außerhalb des zulässigen Bereichs " ++
    "von 10 bis 2000 kWh. Bitte Eingaben prüfen.").data

/-- The dict returned by a successful `append_row` (`main.py:279-285`). -/
structure ReadingRecord where
  Datum : List Char
  Zaehlerstand : ℤ
  Strompreis : ℚ
  Verbrauch : ℤ
  Abrechnung : ℚ
deriving DecidableEq

/-- `append_row(form_date_iso, zaehlerstand, strompreis)`
(`main.py:256-285`): load the ledger, compute
`verbrauch = max(0, round(zaehlerstand - last_zaehler))`, apply the
`[10, 2000]` range check when the frame has data rows, compute
`abrechnung = round(verbrauch * strompreis, 2)`, format the new line,
re-read the raw text, strip trailing newlines, append the new line plus a
newline, and write the whole text back. The resulting store is returned
alongside the result; every error leaves the store as the initial read
left it. -/
def append_row (st : Store) (d : PyDate) (zaehlerstand strompreis : ℚ) :
    (Except AppendErr ReadingRecord) × Store :=
  let r1 := read_tsv_text st
  match load_df r1.1 with
  | .error e => (.error (.load e), r1.2)
  | .ok df =>
    match lastZaehlerOpt df with
    | none => (.error .badField, r1.2)
    | some last_zaehler =>
      let verbrauch : ℤ := max 0 (pyRound (zaehlerstand - (last_zaehler : ℚ)))
      if df.rows ≠ [] ∧ ¬(10 ≤ verbrauch ∧ verbrauch ≤ 2000) then
        (.error .outOfRange, r1.2)
      else
        let abrechnung : ℚ := pyRound2 ((verbrauch : ℚ) * strompreis)
        let datum_str := fmtDate d
        let new_line := formatRow datum_str zaehlerstand strompreis verbrauch abrechnung
        let r2 := read_tsv_text r1.2
        let new_text := rstripNL r2.1 ++ '\n' :: new_line ++ ['\n']
        (.ok ⟨datum_str, pyInt zaehlerstand, strompreis, verbrauch, abrechnung⟩,
          write_tsv_text r2.2 new_text)

/-! ### `delete_last_entry` (`main.py:827-870`) -/

/-- The failure condition of `delete_last_entry` (reported to the user via
an error redirect). -/
inductive DeleteErr
  | nothingToDelete
deriving DecidableEq

/-- The error text of the `delete_last_entry` failure (`main.py:846`). -/
def nothingToDeleteMsg : List Char :=
  "CSV hat keine weitere Zeile zum Löschen".data

/-- `delete_last_entry` (`main.py:827-870`): read the ledger
(`nc_download_file` initialises an absent remote file like
`read_tsv_text`), split into lines; with at most one line fail without
writing; otherwise drop the last line, rejoin with newlines and write
back. -/
def delete_last_entry (st : Store) : (Except DeleteErr Unit) × Store :=
  let r1 := read_tsv_text st
  let lines := splitlinesLF r1.1
  if lines.length ≤ 1 then (.error .nothingToDelete, r1.2)
  else (.ok (), write_tsv_text r1.2 (joinNL lines.dropLast))

/-! ### Concrete ledgers for instantiation -/

/-- Header plus one data row `01.01.2024 / 1000 / 0.300000 / 0 / 0.000000`
(the scenario ledger of the specification). -/
def ledger1 : List Char :=
  ("Datum\tZaehlerstand\tStrompreis\tVerbrauch\tAbrechnung\n" ++
    "01.01.2024\t1000\t0.300000\t0\t0.000000\n").data

/-- `ledger1` after appending `01.02.2024 / 1500 / 0.32`. -/
def ledger2 : List Char :=
  ledger1 ++ "01.02.2024\t1500\t0.320000\t500\t160.000000\n".data

/-- `ledger1` as `load_df` parses it. -/
def df1 : Df :=
  ⟨requiredCols,
    [["01.01.2024".data, "1000".data, "0.300000".data, "0".data, "0.000000".data]]⟩

/-- The record `append_row` returns for `01.02.2024 / 1500 / 0.32` on
`ledger1`. -/
def rec1 : ReadingRecord := ⟨"01.02.2024".data, 1500, 32/100, 500, 160⟩

/-- The header-only ledger after appending `01.01.2024 / 1000 / 0.30`. -/
def afterFirstAppend : List Char :=
  headerText ++ "01.01.2024\t1000\t0.300000\t1000\t300.000000\n".data

/-- A parseable ledger missing all five required columns. -/
def noColsText : List Char := "foo\tbar\n1\t2\n".data

/-- The record `append_row` returns for the fractional reading `1100.7`
on `ledger1`: the stored reading truncates to `1100`, the consumption
rounds `100.7` to `101`. -/
def rec9 : ReadingRecord := ⟨"01.02.2024".data, 1100, 32/100, 101, 808/25⟩

/-- `ledger1` after appending the fractional reading `1100.7` at `0.32`. -/
def ledger9 : List Char :=
  ledger1 ++ "01.02.2024\t1100\t0.320000\t101\t32.320000\n".data

/-- `ledger1` after appending `3000.5` at `0.32`: the tie `2000.5` rounds
half-to-even down to `2000`, which passes the range check. -/
def ledger10 : List Char :=
  ledger1 ++ "01.02.2024\t3000\t0.320000\t2000\t640.000000\n".data

/-! ### Properties of the rounding model -/

theorem pyRound_intCast (k : ℤ) : pyRound (k : ℚ) = k := by
  unfold pyRound
  rw [Int.floor_intCast]
  norm_num

theorem pyRound_nonpos {q : ℚ} (hq : q < 0) : pyRound q ≤ 0 := by
  have hfl : ⌊q⌋ < 0 := by
    have h1 : (⌊q⌋ : ℚ) ≤ q := Int.floor_le q
    have h2 : (⌊q⌋ : ℚ) < 0 := lt_of_le_of_lt h1 hq
    exact_mod_cast h2
  unfold pyRound
  split
  · omega
  · split
    · omega
    · split <;> omega

/-- Round-half-to-even at an exact tie: `n + 1/2` rounds to the even
neighbour, i.e. to `n + n % 2`. -/
theorem pyRound_half (n : ℤ) : pyRound ((n : ℚ) + 1/2) = n + n % 2 := by
  have hfl : ⌊(n : ℚ) + 1/2⌋ = n := by
    rw [add_comm, Int.floor_add_int]
    norm_num
  have hr : ((n : ℚ) + 1/2) - (n : ℚ) = 1/2 := by ring
  unfold pyRound
  rw [hfl, hr]
  norm_num
  split <;> omega

theorem pyInt_nonneg_eq_floor {q : ℚ} (hq : 0 ≤ q) : pyInt q = ⌊q⌋ := by
  unfold pyInt
  rw [if_neg (not_lt.mpr hq)]

theorem pyInt_neg_eq_ceil {q : ℚ} (hq : q < 0) : pyInt q = ⌈q⌉ := by
  unfold pyInt
  rw [if_pos hq]

theorem pyInt_intCast (k : ℤ) : pyInt (k : ℚ) = k := by
  unfold pyInt
  split <;> simp

/-! ### Consequences of the rounding model -/

/-- For integer readings at or above the previous reading, the clamped
rounded difference is the exact difference. -/
theorem verbrauch_int_exact {z mi : ℤ} (h : z ≤ mi) :
    max 0 (pyRound ((mi : ℚ) - (z : ℚ))) = mi - z := by
  have hcast : (mi : ℚ) - (z : ℚ) = ((mi - z : ℤ) : ℚ) := by push_cast; ring
  rw [hcast, pyRound_intCast]
  omega

/-- For readings below the previous reading, the clamped rounded
difference is zero. -/
theorem verbrauch_clamp {z : ℤ} {m : ℚ} (h : m < z) :
    max 0 (pyRound (m - (z : ℚ))) = 0 := by
  have hneg : m - (z : ℚ) < 0 := by linarith
  have := pyRound_nonpos hneg
  omega

/-! ### Character classes of the formatted fields -/

theorem digitCh_safe (d : ℕ) : digitCh d ≠ '\n' ∧ digitCh d ≠ '\t' := by
  have h : d % 10 < 10 := Nat.mod_lt _ (by norm_num)
  unfold digitCh
  generalize d % 10 = k at h ⊢
  interval_cases k <;> exact ⟨by decide, by decide⟩

theorem mem_natDigitsAux_safe :
    ∀ (f n : ℕ) (c : Char), c ∈ natDigitsAux f n → c ≠ '\n' ∧ c ≠ '\t'
  | 0, _, c, h => by simp [natDigitsAux] at h
  | f + 1, n, c, h => by
    by_cases hn : n = 0
    · simp [natDigitsAux, hn] at h
    · rw [natDigitsAux, if_neg hn] at h
      rcases List.mem_append.mp h with h1 | h1
      · exact mem_natDigitsAux_safe f (n / 10) c h1
      · rw [List.mem_singleton.mp h1]
        exact digitCh_safe _

theorem mem_natDigits_safe {n : ℕ} {c : Char} (h : c ∈ natDigits n) :
    c ≠ '\n' ∧ c ≠ '\t' := by
  unfold natDigits at h
  split at h
  · rw [List.mem_singleton.mp h]
    exact ⟨by decide, by decide⟩
  · exact mem_natDigitsAux_safe _ _ c h

theorem mem_padZeros_safe {k : ℕ} {s : List Char} {c : Char}
    (hs : ∀ x ∈ s, x ≠ '\n' ∧ x ≠ '\t') (h : c ∈ padZeros k s) :
    c ≠ '\n' ∧ c ≠ '\t' := by
  unfold padZeros at h
  rcases List.mem_append.mp h with h1 | h1
  · rw [List.eq_of_mem_replicate h1]
    exact ⟨by decide, by decide⟩
  · exact hs c h1

theorem mem_intStr_safe {z : ℤ} {c : Char} (h : c ∈ intStr z) :
    c ≠ '\n' ∧ c ≠ '\t' := by
  unfold intStr at h
  rcases List.mem_append.mp h with h1 | h1
  · split at h1
    · rw [List.mem_singleton.mp h1]
      exact ⟨by decide, by decide⟩
    · simp at h1
  · exact mem_natDigits_safe h1

theorem mem_fmt6_safe {q : ℚ} {c : Char} (h : c ∈ fmt6 q) :
    c ≠ '\n' ∧ c ≠ '\t' := by
  unfold fmt6 at h
  rcases List.mem_append.mp h with h1 | h1
  · rcases List.mem_append.mp h1 with h2 | h2
    · split at h2
      · rw [List.mem_singleton.mp h2]
        exact ⟨by decide, by decide⟩
      · simp at h2
    · exact mem_natDigits_safe h2
  · rcases List.mem_cons.mp h1 with h3 | h3
    · rw [h3]
      exact ⟨by decide, by decide⟩
    · exact mem_padZeros_safe (fun x hx => mem_natDigits_safe hx) h3

theorem mem_fmtDate_safe {d : PyDate} {c : Char} (h : c ∈ fmtDate d) :
    c ≠ '\n' ∧ c ≠ '\t' := by
  unfold fmtDate pad2 at h
  rcases List.mem_append.mp h with h1 | h1
  · exact mem_padZeros_safe (fun x hx => mem_natDigits_safe hx) h1
  · rcases List.mem_cons.mp h1 with h2 | h2
    · rw [h2]; exact ⟨by decide, by decide⟩
    · rcases List.mem_append.mp h2 with h3 | h3
      · exact mem_padZeros_safe (fun x hx => mem_natDigits_safe hx) h3
      · rcases List.mem_cons.mp h3 with h4 | h4
        · rw [h4]; exact ⟨by decide, by decide⟩
        · exact mem_natDigits_safe h4

/-- The formatted ledger line contains no newline character. -/
theorem nl_not_mem_formatRow {ds : List Char}
    (hds : ∀ x ∈ ds, x ≠ '\n' ∧ x ≠ '\t') (m p : ℚ) (v : ℤ) (a : ℚ) :
    '\n' ∉ formatRow ds m p v a := by
  unfold formatRow
  intro h
  rcases List.mem_append.mp h with h1 | h1
  · exact (hds _ h1).1 rfl
  · rcases List.mem_cons.mp h1 with h2 | h2
    · exact absurd h2 (by decide)
    · rcases List.mem_append.mp h2 with h3 | h3
      · exact (mem_intStr_safe h3).1 rfl
      · rcases List.mem_cons.mp h3 with h4 | h4
        · exact absurd h4 (by decide)
        · rcases List.mem_append.mp h4 with h5 | h5
          · exact (mem_fmt6_safe h5).1 rfl
          · rcases List.mem_cons.mp h5 with h6 | h6
            · exact absurd h6 (by decide)
            · rcases List.mem_append.mp h6 with h7 | h7
              · exact (mem_intStr_safe h7).1 rfl
              · rcases List.mem_cons.mp h7 with h8 | h8
                · exact absurd h8 (by decide)
                · exact (mem_fmt6_safe h8).1 rfl

/-! ### Splitting, joining and stripping lemmas -/

theorem splitlinesLF_ne_nil : ∀ {a : List Char}, a ≠ [] → splitlinesLF a ≠ []
  | [], h, _ => h rfl
  | c :: cs, _, h => by
    by_cases hc : c = '\n'
    · simp [splitlinesLF, hc] at h
    · rcases hcs : splitlinesLF cs with _ | ⟨l, ls⟩ <;>
        simp [splitlinesLF, hc, hcs] at h

theorem splitlinesLF_append_nl {L : List Char} (B : List Char) (h : '\n' ∉ L) :
    splitlinesLF (L ++ '\n' :: B) = L :: splitlinesLF B := by
  induction L with
  | nil => simp [splitlinesLF]
  | cons c cs ih =>
    have hc : c ≠ '\n' := fun e => h (e ▸ List.mem_cons_self c cs)
    have hcs : '\n' ∉ cs := fun m => h (List.mem_cons_of_mem c m)
    rw [List.cons_append, splitlinesLF, if_neg hc, ih hcs]

/-- A line with no internal newline followed by a terminating newline
splits into exactly that line. -/
theorem splitlinesLF_line {L : List Char} (h : '\n' ∉ L) :
    splitlinesLF (L ++ ['\n']) = [L] := by
  have := splitlinesLF_append_nl [] h
  simpa [splitlinesLF] using this

theorem joinNL_single (a : List Char) : joinNL [a] = a := rfl

theorem joinNL_cons_cons (a b : List Char) (t : List (List Char)) :
    joinNL (a :: b :: t) = a ++ '\n' :: joinNL (b :: t) := rfl

/-- Appending `"\n" + L + "\n"` to a text without trailing newline adds
exactly one line `L` to its line decomposition. -/
theorem splitlinesLF_append_line :
    ∀ (A : List Char) {L : List Char}, A ≠ [] → A.getLast? ≠ some '\n' →
      '\n' ∉ L → splitlinesLF (A ++ '\n' :: (L ++ ['\n'])) = splitlinesLF A ++ [L]
  | [], _, hA, _, _ => absurd rfl hA
  | [c], L, _, hlast, hL => by
    have hc : c ≠ '\n' := by simpa using hlast
    have h2 : splitlinesLF (L ++ ['\n']) = [L] := splitlinesLF_line hL
    simp [splitlinesLF, hc, h2]
  | c :: c2 :: cs2, L, _, hlast, hL => by
    have hlast2 : (c2 :: cs2).getLast? ≠ some '\n' := by
      rwa [List.getLast?_cons_cons] at hlast
    have ih := splitlinesLF_append_line (c2 :: cs2) (by simp) hlast2 hL
    by_cases hc : c = '\n'
    · subst hc
      have hrhs : splitlinesLF ('\n' :: c2 :: cs2) = [] :: splitlinesLF (c2 :: cs2) := by
        rw [splitlinesLF, if_pos rfl]
      rw [List.cons_append, splitlinesLF, if_pos rfl, ih, hrhs]
      simp
    · have hrhs : splitlinesLF (c :: c2 :: cs2) =
          match splitlinesLF (c2 :: cs2) with
          | [] => [[c]]
          | l :: ls => (c :: l) :: ls := by
        rw [splitlinesLF, if_neg hc]
      rw [List.cons_append, splitlinesLF, if_neg hc, ih, hrhs]
      rcases h2 : splitlinesLF (c2 :: cs2) with _ | ⟨l, ls⟩
      · exact absurd h2 (splitlinesLF_ne_nil (by simp))
      · simp

/-- Joining the line decomposition of a text without trailing newline
gives back the text. -/
theorem joinNL_splitlinesLF :
    ∀ (a : List Char), a.getLast? ≠ some '\n' → joinNL (splitlinesLF a) = a
  | [], _ => rfl
  | [c], h => by
    have hc : c ≠ '\n' := by simpa using h
    simp [splitlinesLF, hc, joinNL]
  | c :: c2 :: cs, h => by
    have h2 : (c2 :: cs).getLast? ≠ some '\n' := by
      rwa [List.getLast?_cons_cons] at h
    have ih := joinNL_splitlinesLF (c2 :: cs) h2
    by_cases hc : c = '\n'
    · subst hc
      rw [splitlinesLF, if_pos rfl]
      rcases h3 : splitlinesLF (c2 :: cs) with _ | ⟨l, ls⟩
      · exact absurd h3 (splitlinesLF_ne_nil (by simp))
      · rw [h3] at ih
        rw [joinNL_cons_cons, ih]
        simp
    · rw [splitlinesLF, if_neg hc]
      rcases h3 : splitlinesLF (c2 :: cs) with _ | ⟨l, ls⟩
      · exact absurd h3 (splitlinesLF_ne_nil (by simp))
      · rw [h3] at ih
        cases ls with
        | nil =>
          have hl : l = c2 :: cs := ih
          rw [joinNL_single, hl]
        | cons x xs =>
          rw [joinNL_cons_cons] at ih
          rw [joinNL_cons_cons, List.cons_append, ih]

theorem splitOn_no_sep : ∀ (sep : Char) (A : List Char), sep ∉ A →
    splitOn sep A = [A]
  | _, [], _ => rfl
  | sep, c :: cs, h => by
    have hc : c ≠ sep := fun e => h (e ▸ List.mem_cons_self c cs)
    have hcs : sep ∉ cs := fun m => h (List.mem_cons_of_mem c m)
    rw [splitOn, if_neg hc, splitOn_no_sep sep cs hcs]

theorem splitOn_append (sep : Char) :
    ∀ (A : List Char) (B : List Char), sep ∉ A →
      splitOn sep (A ++ sep :: B) = A :: splitOn sep B
  | [], B, _ => by simp [splitOn]
  | c :: cs, B, h => by
    have hc : c ≠ sep := fun e => h (e ▸ List.mem_cons_self c cs)
    have hcs : sep ∉ cs := fun m => h (List.mem_cons_of_mem c m)
    rw [List.cons_append, splitOn, if_neg hc, splitOn_append sep cs B hcs]

theorem head?_dropWhile_not (p : Char → Bool) :
    ∀ (l : List Char) {c : Char}, (l.dropWhile p).head? = some c → p c = false
  | [], c, h => by simp [List.dropWhile] at h
  | a :: as, c, h => by
    by_cases ha : p a
    · rw [List.dropWhile_cons_of_pos ha] at h
      exact head?_dropWhile_not p as h
    · rw [List.dropWhile_cons_of_neg ha] at h
      simp at h
      subst h
      simpa using ha

/-- `rstrip("\n")` leaves no trailing newline. -/
theorem rstripNL_getLast?_ne (a : List Char) :
    (rstripNL a).getLast? ≠ some '\n' := by
  unfold rstripNL
  rw [List.getLast?_reverse]
  intro h
  have := head?_dropWhile_not (fun c => c = '\n') a.reverse h
  simp at this

/-- `rstrip("\n")` erases the text only when it is all newlines. -/
theorem rstripNL_eq_nil {a : List Char} (h : rstripNL a = []) :
    ∀ c ∈ a, c = '\n' := by
  unfold rstripNL at h
  rw [List.reverse_eq_nil_iff] at h
  intro c hc
  have := List.dropWhile_eq_nil_iff.mp h c (List.mem_reverse.mpr hc)
  simpa using this

/-- `rstrip("\n")` is the identity on text without trailing newline. -/
theorem rstripNL_eq_self {a : List Char} (h : a.getLast? ≠ some '\n') :
    rstripNL a = a := by
  unfold rstripNL
  cases ha : a.reverse with
  | nil =>
    rw [List.reverse_eq_nil_iff] at ha
    simp [ha]
  | cons x xs =>
    have hx : x ≠ '\n' := by
      intro e
      apply h
      rw [← List.head?_reverse, ha, e]
      rfl
    rw [List.dropWhile_cons_of_neg (by simpa using hx), ← ha,
      List.reverse_reverse]

/-! ### Normal forms of `read_tsv_text` and `append_row` -/

theorem read_tsv_text_some {st : Store} {t : List Char} (h : st.content = some t) :
    read_tsv_text st = (t, st) := by
  unfold read_tsv_text
  rw [h]

theorem read_snd_content (st : Store) :
    (read_tsv_text st).2.content = some (read_tsv_text st).1 := by
  unfold read_tsv_text
  cases h : st.content with
  | none => rfl
  | some t => simpa using h

theorem read_tsv_text_idem (st : Store) :
    read_tsv_text (read_tsv_text st).2 = ((read_tsv_text st).1, (read_tsv_text st).2) :=
  read_tsv_text_some (read_snd_content st)

/-- A `load_df` failure surfaces unchanged from `append_row`, with the
store as the initial read left it. -/
theorem append_row_load_error {st : Store} {t : List Char} {e : LoadErr}
    (hst : st.content = some t) (he : load_df t = .error e)
    (d : PyDate) (m p : ℚ) :
    append_row st d m p = (.error (.load e), st) := by
  unfold append_row
  rw [read_tsv_text_some hst]
  dsimp only
  rw [he]

/-- The range-check failure of `append_row`, with the store unchanged. -/
theorem append_row_outOfRange {st : Store} {t : List Char} {df : Df} {z : ℤ}
    (hst : st.content = some t) (hdf : load_df t = .ok df)
    (hz : lastZaehlerOpt df = some z) (d : PyDate) (m p : ℚ)
    (hrows : df.rows ≠ [])
    (hout : ¬(10 ≤ max 0 (pyRound (m - (z : ℚ))) ∧
      max 0 (pyRound (m - (z : ℚ))) ≤ 2000)) :
    append_row st d m p = (.error .outOfRange, st) := by
  unfold append_row
  rw [read_tsv_text_some hst]
  dsimp only
  rw [hdf]
  dsimp only
  rw [hz]
  dsimp only
  rw [if_pos ⟨hrows, hout⟩]

/-- The `int()` failure of `append_row` on an unreadable last reading. -/
theorem append_row_badField {st : Store} {t : List Char} {df : Df}
    (hst : st.content = some t) (hdf : load_df t = .ok df)
    (hz : lastZaehlerOpt df = none) (d : PyDate) (m p : ℚ) :
    append_row st d m p = (.error .badField, st) := by
  unfold append_row
  rw [read_tsv_text_some hst]
  dsimp only
  rw [hdf]
  dsimp only
  rw [hz]

/-- The success normal form of `append_row`: the returned record and the
persisted text, spelled out. -/
theorem append_row_success {st : Store} {t : List Char} {df : Df} {z : ℤ}
    (hst : st.content = some t) (hdf : load_df t = .ok df)
    (hz : lastZaehlerOpt df = some z) (d : PyDate) (m p : ℚ)
    (hok : df.rows = [] ∨ (10 ≤ max 0 (pyRound (m - (z : ℚ))) ∧
      max 0 (pyRound (m - (z : ℚ))) ≤ 2000)) :
    append_row st d m p =
      (.ok ⟨fmtDate d, pyInt m, p, max 0 (pyRound (m - (z : ℚ))),
          pyRound2 (((max 0 (pyRound (m - (z : ℚ))) : ℤ) : ℚ) * p)⟩,
        ⟨some (rstripNL t ++ '\n' ::
          (formatRow (fmtDate d) m p (max 0 (pyRound (m - (z : ℚ))))
            (pyRound2 (((max 0 (pyRound (m - (z : ℚ))) : ℤ) : ℚ) * p)) ++ ['\n']))⟩) := by
  have hcond : ¬(df.rows ≠ [] ∧ ¬(10 ≤ max 0 (pyRound (m - (z : ℚ))) ∧
      max 0 (pyRound (m - (z : ℚ))) ≤ 2000)) := by tauto
  unfold append_row
  rw [read_tsv_text_some hst]
  dsimp only
  rw [hdf]
  dsimp only
  rw [hz]
  dsimp only
  rw [if_neg hcond]
  rw [read_tsv_text_some hst]
  simp [write_tsv_text]

/-- Splitting the formatted line at tabs recovers the five fields. -/
theorem splitOn_tab_formatRow {ds : List Char}
    (hds : ∀ x ∈ ds, x ≠ '\n' ∧ x ≠ '\t') (m p : ℚ) (v : ℤ) (a : ℚ) :
    splitOn '\t' (formatRow ds m p v a) =
      [ds, intStr (pyInt m), fmt6 p, intStr v, fmt6 a] := by
  unfold formatRow
  rw [splitOn_append '\t' ds _ (fun hm => (hds _ hm).2 rfl),
    splitOn_append '\t' (intStr (pyInt m)) _ (fun hm => (mem_intStr_safe hm).2 rfl),
    splitOn_append '\t' (fmt6 p) _ (fun hm => (mem_fmt6_safe hm).2 rfl),
    splitOn_append '\t' (intStr v) _ (fun hm => (mem_intStr_safe hm).2 rfl),
    splitOn_no_sep '\t' (fmt6 a) (fun hm => (mem_fmt6_safe hm).2 rfl)]

/-- `delete_last_entry` on at most one line: error, no write. -/
theorem delete_last_entry_small {st : Store} {t : List Char}
    (hst : st.content = some t) (h : (splitlinesLF t).length ≤ 1) :
    delete_last_entry st = (.error .nothingToDelete, st) := by
  unfold delete_last_entry
  rw [read_tsv_text_some hst]
  dsimp only
  rw [if_pos h]

/-- `delete_last_entry` on two or more lines: drop the last line, rejoin,
write back. -/
theorem delete_last_entry_big {st : Store} {t : List Char}
    (hst : st.content = some t) (h : ¬(splitlinesLF t).length ≤ 1) :
    delete_last_entry st = (.ok (), ⟨some (joinNL (splitlinesLF t).dropLast)⟩) := by
  unfold delete_last_entry
  rw [read_tsv_text_some hst]
  dsimp only
  rw [if_neg h]
  rfl

/-- A successfully loaded ledger text is not whitespace-only. -/
theorem load_df_ok_not_space {t : List Char} {df : Df}
    (h : load_df t = .ok df) : t.all isPySpace ≠ true := by
  intro hall
  unfold load_df at h
  rw [if_pos hall] at h
  cases h

/-- A successfully loaded ledger text keeps a nonempty core after
`rstrip("\n")`. -/
theorem load_df_ok_rstrip_ne_nil {t : List Char} {df : Df}
    (h : load_df t = .ok df) : rstripNL t ≠ [] := by
  intro hnil
  apply load_df_ok_not_space h
  rw [List.all_eq_true]
  intro c hc
  have := rstripNL_eq_nil hnil c hc
  rw [this]
  rfl

/-- Inversion: everything a successful `append_row` implies. -/
theorem append_row_ok_inv {st : Store} {t : List Char} {d : PyDate} {m p : ℚ}
    {rec : ReadingRecord} {stf : Store} (hst : st.content = some t)
    (h : append_row st d m p = (.ok rec, stf)) :
    ∃ df z, load_df t = .ok df ∧
      lastZaehlerOpt df = some z ∧
      (df.rows = [] ∨ (10 ≤ max 0 (pyRound (m - (z : ℚ))) ∧
        max 0 (pyRound (m - (z : ℚ))) ≤ 2000)) ∧
      rec = ⟨fmtDate d, pyInt m, p, max 0 (pyRound (m - (z : ℚ))),
        pyRound2 (((max 0 (pyRound (m - (z : ℚ))) : ℤ) : ℚ) * p)⟩ ∧
      stf = ⟨some (rstripNL t ++ '\n' ::
        (formatRow (fmtDate d) m p (max 0 (pyRound (m - (z : ℚ))))
          (pyRound2 (((max 0 (pyRound (m - (z : ℚ))) : ℤ) : ℚ) * p)) ++ ['\n']))⟩ := by
  rcases hload : load_df t with e | df
  · rw [append_row_load_error hst hload d m p] at h
    exact absurd h (by simp)
  · rcases hz : lastZaehlerOpt df with _ | z
    · rw [append_row_badField hst hload hz d m p] at h
      exact absurd h (by simp)
    · by_cases hcond : df.rows ≠ [] ∧ ¬(10 ≤ max 0 (pyRound (m - (z : ℚ))) ∧
          max 0 (pyRound (m - (z : ℚ))) ≤ 2000)
      · rw [append_row_outOfRange hst hload hz d m p hcond.1 hcond.2] at h
        exact absurd h (by simp)
      · have hok : df.rows = [] ∨ (10 ≤ max 0 (pyRound (m - (z : ℚ))) ∧
            max 0 (pyRound (m - (z : ℚ))) ≤ 2000) := by tauto
        rw [append_row_success hst hload hz d m p hok] at h
        rw [Prod.mk.injEq] at h
        obtain ⟨h1, h2⟩ := h
        injection h1 with h1
        exact ⟨df, z, rfl, hz, hok, h1.symm, h2.symm⟩

/-! ### The claims -/

section ClaimProofs

attribute [local semireducible] Rat.add Rat.mul Rat.inv Rat.sub

set_option maxRecDepth 40000

/-- C1: for every append on a loadable ledger, the computed consumption is
`max(0, round(meter_reading − previous_reading))`, where the previous
reading is the last data row's Meter Reading, or 0 when the ledger has no
data rows; for integer readings at or above the previous one the
consumption is exactly the difference, and for readings below it the
consumption is 0. -/
theorem C1_append_consumption {st : Store} {t : List Char} {df : Df} {z : ℤ}
    {d : PyDate} {m p : ℚ} {rec : ReadingRecord} {stf : Store}
    (hst : st.content = some t) (hdf : load_df t = Except.ok df)
    (hz : lastZaehlerOpt df = some z)
    (hok : append_row st d m p = (Except.ok rec, stf)) :
    rec.Verbrauch = max 0 (pyRound (m - (z : ℚ))) ∧
    (df.rows = [] → z = 0) ∧
    (∀ mi : ℤ, z ≤ mi → max 0 (pyRound ((mi : ℚ) - (z : ℚ))) = mi - z) ∧
    (m < (z : ℚ) → rec.Verbrauch = 0) := by
  obtain ⟨df', z', hdf', hz', hok', hrec, hstf⟩ := append_row_ok_inv hst hok
  rw [hdf] at hdf'
  injection hdf' with hdf'
  subst hdf'
  rw [hz] at hz'
  injection hz' with hz'
  subst hz'
  refine ⟨by rw [hrec], ?_, ?_, ?_⟩
  · intro hrow
    unfold lastZaehlerOpt at hz
    rw [hrow] at hz
    simp at hz
    omega
  · intro mi hmi
    exact verbrauch_int_exact hmi
  · intro hm
    rw [hrec]
    exact verbrauch_clamp hm

/-- C1 witness: the scenario ledger (last reading 1000), appending reading
1500 at price 0.32. -/
theorem C1_witness :
    rec1.Verbrauch = max 0 (pyRound ((1500 : ℚ) - ((1000 : ℤ) : ℚ))) ∧
    (df1.rows = [] → (1000 : ℤ) = 0) ∧
    (∀ mi : ℤ, (1000 : ℤ) ≤ mi →
      max 0 (pyRound ((mi : ℚ) - ((1000 : ℤ) : ℚ))) = mi - 1000) ∧
    ((1500 : ℚ) < ((1000 : ℤ) : ℚ) → rec1.Verbrauch = 0) :=
  @C1_append_consumption ⟨some ledger1⟩ ledger1 df1 1000 ⟨2024, 2, 1⟩ 1500
    (32/100) rec1 ⟨some ledger2⟩ rfl (by decide) (by decide) (by decide)

/-- C2: with at least one data row, a computed consumption outside
`[10, 2000]` makes the append fail with the out-of-range error (a
`ValueError` carrying the fixed human-readable message) and leaves the
ledger unchanged — a subsequent read returns the pre-call content; a
ledger that parses with no data rows (header-only) is exempt: the append
succeeds whatever the consumption. -/
theorem C2_range_check_and_exemption {st : Store} {t : List Char} {df : Df}
    {z : ℤ} (hst : st.content = some t) (hdf : load_df t = Except.ok df)
    (hz : lastZaehlerOpt df = some z) (d : PyDate) (m p : ℚ) :
    (df.rows ≠ [] →
      ¬(10 ≤ max 0 (pyRound (m - (z : ℚ))) ∧
        max 0 (pyRound (m - (z : ℚ))) ≤ 2000) →
      append_row st d m p = (Except.error .outOfRange, st) ∧
        (read_tsv_text st).1 = t ∧
        AppendErr.outOfRange.pyType = PyType.valueError ∧
        outOfRangeMsg ≠ []) ∧
    (df.rows = [] →
      ∃ rec stf, append_row st d m p = (Except.ok rec, stf)) := by
  constructor
  · intro hrows hout
    refine ⟨append_row_outOfRange hst hdf hz d m p hrows hout, ?_, rfl, by decide⟩
    rw [read_tsv_text_some hst]
  · intro hrow
    exact ⟨_, _, append_row_success hst hdf hz d m p (Or.inl hrow)⟩

/-- C2 witness: the scenario ledger (last reading 1000), appending reading
1005 — consumption 5, out of range. -/
theorem C2_witness :
    (df1.rows ≠ [] →
      ¬(10 ≤ max 0 (pyRound ((1005 : ℚ) - ((1000 : ℤ) : ℚ))) ∧
        max 0 (pyRound ((1005 : ℚ) - ((1000 : ℤ) : ℚ))) ≤ 2000) →
      append_row ⟨some ledger1⟩ ⟨2024, 2, 1⟩ 1005 (32/100) =
        (Except.error .outOfRange, ⟨some ledger1⟩) ∧
        (read_tsv_text ⟨some ledger1⟩).1 = ledger1 ∧
        AppendErr.outOfRange.pyType = PyType.valueError ∧
        outOfRangeMsg ≠ []) ∧
    (df1.rows = [] →
      ∃ rec stf, append_row ⟨some ledger1⟩ ⟨2024, 2, 1⟩ 1005 (32/100) =
        (Except.ok rec, stf)) :=
  @C2_range_check_and_exemption ⟨some ledger1⟩ ledger1 df1 1000
    rfl (by decide) (by decide) ⟨2024, 2, 1⟩ 1005 (32/100)

/-- C3: every successful append returns a charge equal to
`round(consumption × unit_price, 2)` for the (always non-negative)
computed consumption; at consumption 500 and unit price 0.32 the charge
is exactly 160.00. -/
theorem C3_charge_formula {st : Store} {t : List Char} {d : PyDate}
    {m p : ℚ} {rec : ReadingRecord} {stf : Store}
    (hst : st.content = some t)
    (hok : append_row st d m p = (Except.ok rec, stf)) :
    rec.Abrechnung = pyRound2 ((rec.Verbrauch : ℚ) * p) ∧
    0 ≤ rec.Verbrauch ∧
    pyRound2 ((500 : ℚ) * (32/100)) = 160 := by
  obtain ⟨df, z, hdf, hz, hok', hrec, hstf⟩ := append_row_ok_inv hst hok
  subst hrec
  exact ⟨rfl, le_max_left 0 _, by decide⟩

/-- C3 witness: the scenario append `1500` at price `0.32`. -/
theorem C3_witness :
    rec1.Abrechnung = pyRound2 ((rec1.Verbrauch : ℚ) * (32/100)) ∧
    0 ≤ rec1.Verbrauch ∧
    pyRound2 ((500 : ℚ) * (32/100)) = 160 :=
  @C3_charge_formula ⟨some ledger1⟩ ledger1 ⟨2024, 2, 1⟩ 1500 (32/100) rec1
    ⟨some ledger2⟩ rfl (by decide)

/-- C4 counterexample: on the header-only ledger (whose content ends with
a newline) a successful append followed by delete_last leaves the header
without its trailing newline — not the pre-append byte content. -/
theorem C4_counterexample :
    append_row ⟨some headerText⟩ ⟨2024, 1, 1⟩ 1000 (3/10) =
      (Except.ok ⟨"01.01.2024".data, 1000, 3/10, 1000, 300⟩,
        ⟨some afterFirstAppend⟩) ∧
    delete_last_entry ⟨some afterFirstAppend⟩ =
      (Except.ok (), ⟨some (rstripNL headerText)⟩) ∧
    rstripNL headerText ≠ headerText :=
  ⟨by decide, by decide, by decide⟩

/-- C4 amended: a successful append followed by delete_last restores the
pre-append content with its trailing newlines stripped — byte-identical
exactly when the pre-append content did not end in a newline. -/
theorem C4_roundtrip_amended {st : Store} {t : List Char} {d : PyDate}
    {m p : ℚ} {rec : ReadingRecord} {stf : Store}
    (hst : st.content = some t)
    (hok : append_row st d m p = (Except.ok rec, stf)) :
    delete_last_entry stf = (Except.ok (), ⟨some (rstripNL t)⟩) ∧
    (t.getLast? ≠ some '\n' → (delete_last_entry stf).2 = st) := by
  obtain ⟨df, z, hdf, hz, hok', hrec, hstf⟩ := append_row_ok_inv hst hok
  set L := formatRow (fmtDate d) m p (max 0 (pyRound (m - (z : ℚ))))
    (pyRound2 (((max 0 (pyRound (m - (z : ℚ))) : ℤ) : ℚ) * p)) with hL
  have hcontent : stf.content = some (rstripNL t ++ '\n' :: (L ++ ['\n'])) := by
    rw [hstf]
  have hA : rstripNL t ≠ [] := load_df_ok_rstrip_ne_nil hdf
  have hlast : (rstripNL t).getLast? ≠ some '\n' := rstripNL_getLast?_ne t
  have hnlL : '\n' ∉ L := by
    rw [hL]
    exact nl_not_mem_formatRow (fun x hx => mem_fmtDate_safe hx) m p _ _
  have hsplit : splitlinesLF (rstripNL t ++ '\n' :: (L ++ ['\n'])) =
      splitlinesLF (rstripNL t) ++ [L] :=
    splitlinesLF_append_line (rstripNL t) hA hlast hnlL
  have hlen : ¬(splitlinesLF (rstripNL t ++ '\n' :: (L ++ ['\n']))).length ≤ 1 := by
    rw [hsplit, List.length_append]
    have hpos : 0 < (splitlinesLF (rstripNL t)).length :=
      List.length_pos.mpr (splitlinesLF_ne_nil hA)
    simp only [List.length_singleton]
    omega
  have hdel := delete_last_entry_big hcontent hlen
  rw [hsplit, List.dropLast_concat, joinNL_splitlinesLF (rstripNL t) hlast] at hdel
  refine ⟨hdel, ?_⟩
  intro hT
  rw [hdel, rstripNL_eq_self hT, ← hst]

/-- C4 witness for the amended round-trip: the scenario append on
`ledger1` (which ends in a newline, so the stripped content differs). -/
theorem C4_witness :
    delete_last_entry ⟨some ledger2⟩ = (Except.ok (), ⟨some (rstripNL ledger1)⟩) ∧
    (ledger1.getLast? ≠ some '\n' →
      (delete_last_entry ⟨some ledger2⟩).2 = ⟨some ledger1⟩) :=
  @C4_roundtrip_amended ⟨some ledger1⟩ ledger1 ⟨2024, 2, 1⟩ 1500 (32/100) rec1
    ⟨some ledger2⟩ rfl (by decide)

/-- C5: delete_last on a ledger of at most one line (header-only or
empty) fails with the nothing-to-delete error (with its message) and
performs no mutation; on two or more lines it drops exactly the final
line, rejoins the remaining lines with newlines, and writes the result
back. -/
theorem C5_delete_last_behaviour {st : Store} {t : List Char}
    (hst : st.content = some t) :
    ((splitlinesLF t).length ≤ 1 →
      delete_last_entry st = (Except.error .nothingToDelete, st) ∧
        nothingToDeleteMsg ≠ []) ∧
    (2 ≤ (splitlinesLF t).length →
      delete_last_entry st =
        (Except.ok (), ⟨some (joinNL (splitlinesLF t).dropLast)⟩)) := by
  constructor
  · intro h
    exact ⟨delete_last_entry_small hst h, by decide⟩
  · intro h
    exact delete_last_entry_big hst (by omega)

/-- C5 witness: the header-only ledger. -/
theorem C5_witness :
    ((splitlinesLF headerText).length ≤ 1 →
      delete_last_entry ⟨some headerText⟩ =
        (Except.error .nothingToDelete, ⟨some headerText⟩) ∧
        nothingToDeleteMsg ≠ []) ∧
    (2 ≤ (splitlinesLF headerText).length →
      delete_last_entry ⟨some headerText⟩ =
        (Except.ok (), ⟨some (joinNL (splitlinesLF headerText).dropLast)⟩)) :=
  @C5_delete_last_behaviour ⟨some headerText⟩ headerText rfl

/-- C6: reading an absent backing resource initialises it with exactly
the header line naming the five columns, persists that header, and
returns exactly the header to the caller. -/
theorem C6_read_init :
    read_tsv_text ⟨none⟩ = (headerText, ⟨some headerText⟩) ∧
    splitlinesLF headerText =
      ["Datum\tZaehlerstand\tStrompreis\tVerbrauch\tAbrechnung".data] ∧
    splitOn '\t' "Datum\tZaehlerstand\tStrompreis\tVerbrauch\tAbrechnung".data =
      requiredCols :=
  ⟨rfl, by decide, by decide⟩

/-- C7: a successful append persists exactly the re-read raw text with
its trailing newlines stripped, one newline, the new record line, and a
final newline; the new record line consists of the five tab-separated
fields in fixed order — the date as DD.MM.YYYY, the Meter Reading as an
integer, the Unit Price with 6 fractional digits, the Consumption as an
integer, and the Charge with 6 fractional digits. -/
theorem C7_persisted_line_format {st : Store} {t : List Char} {d : PyDate}
    {m p : ℚ} {rec : ReadingRecord} {stf : Store}
    (hst : st.content = some t)
    (hok : append_row st d m p = (Except.ok rec, stf)) :
    ∃ z : ℤ,
      stf.content = some (rstripNL t ++ '\n' ::
        (formatRow (fmtDate d) m p (max 0 (pyRound (m - (z : ℚ))))
          (pyRound2 (((max 0 (pyRound (m - (z : ℚ))) : ℤ) : ℚ) * p)) ++ ['\n'])) ∧
      splitOn '\t' (formatRow (fmtDate d) m p (max 0 (pyRound (m - (z : ℚ))))
          (pyRound2 (((max 0 (pyRound (m - (z : ℚ))) : ℤ) : ℚ) * p))) =
        [fmtDate d, intStr (pyInt m), fmt6 p,
          intStr (max 0 (pyRound (m - (z : ℚ)))),
          fmt6 (pyRound2 (((max 0 (pyRound (m - (z : ℚ))) : ℤ) : ℚ) * p))] ∧
      rec.Verbrauch = max 0 (pyRound (m - (z : ℚ))) := by
  obtain ⟨df, z, hdf, hz, hok', hrec, hstf⟩ := append_row_ok_inv hst hok
  refine ⟨z, ?_, ?_, ?_⟩
  · rw [hstf]
  · exact splitOn_tab_formatRow (fun x hx => mem_fmtDate_safe hx) m p _ _
  · rw [hrec]

/-- C7 witness: the scenario append `1500` at price `0.32` on `ledger1`. -/
theorem C7_witness :
    ∃ z : ℤ,
      (⟨some ledger2⟩ : Store).content = some (rstripNL ledger1 ++ '\n' ::
        (formatRow (fmtDate ⟨2024, 2, 1⟩) 1500 (32/100)
          (max 0 (pyRound ((1500 : ℚ) - (z : ℚ))))
          (pyRound2 ((((max 0 (pyRound ((1500 : ℚ) - (z : ℚ)))) : ℤ) : ℚ) * (32/100))) ++ ['\n'])) ∧
      splitOn '\t' (formatRow (fmtDate ⟨2024, 2, 1⟩) 1500 (32/100)
          (max 0 (pyRound ((1500 : ℚ) - (z : ℚ))))
          (pyRound2 ((((max 0 (pyRound ((1500 : ℚ) - (z : ℚ)))) : ℤ) : ℚ) * (32/100)))) =
        [fmtDate ⟨2024, 2, 1⟩, intStr (pyInt (1500 : ℚ)), fmt6 (32/100),
          intStr (max 0 (pyRound ((1500 : ℚ) - (z : ℚ)))),
          fmt6 (pyRound2 ((((max 0 (pyRound ((1500 : ℚ) - (z : ℚ)))) : ℤ) : ℚ) * (32/100)))] ∧
      rec1.Verbrauch = max 0 (pyRound ((1500 : ℚ) - (z : ℚ))) :=
  @C7_persisted_line_format ⟨some ledger1⟩ ledger1 ⟨2024, 2, 1⟩ 1500 (32/100)
    rec1 ⟨some ledger2⟩ rfl (by decide)

/-- C8 counterexample: the empty-ledger failure and the missing-columns
failure are raised with one and the same generic Python exception type
(`RuntimeError`), so the load failure kinds are not distinct types. -/
theorem C8_counterexample :
    load_df [] = Except.error .empty ∧
    load_df noColsText = Except.error (.missingCols requiredCols) ∧
    (AppendErr.load .empty).pyType =
      (AppendErr.load (.missingCols requiredCols)).pyType ∧
    (AppendErr.load .empty).pyType = PyType.runtimeError :=
  ⟨by decide, by decide, rfl, rfl⟩

/-- C8 amended: `load_df` fails with the empty error on empty or
whitespace-only text and with the missing-columns error when required
columns are absent after parsing; the out-of-range failure is a distinct
`ValueError`, but every `load_df` failure is the same generic
`RuntimeError` type, the empty and format failures being distinguishable
only by their messages. -/
theorem C8_error_kinds {t : List Char} :
    (t.all isPySpace = true → load_df t = Except.error .empty) ∧
    (∀ header rest, t.all isPySpace = false →
      (splitlinesLF t).filter (fun l => !l.isEmpty) = header :: rest →
      (rest.map (splitOn '\t')).any
        (fun r => (splitOn '\t' header).length < r.length) = false →
      requiredCols.filter (fun c => !((splitOn '\t' header).contains c)) ≠ [] →
      load_df t = Except.error (.missingCols
        (requiredCols.filter (fun c => !((splitOn '\t' header).contains c))))) ∧
    (∀ e : LoadErr, (AppendErr.load e).pyType = PyType.runtimeError) ∧
    AppendErr.outOfRange.pyType = PyType.valueError ∧
    loadErrMsg .empty ≠ loadErrMsg (.missingCols requiredCols) := by
  refine ⟨?_, ?_, fun e => rfl, rfl, by decide⟩
  · intro hall
    unfold load_df
    rw [if_pos hall]
  · intro header rest hall hfilter hany hmiss
    unfold load_df
    rw [if_neg (by simp [hall]), hfilter]
    dsimp only
    rw [if_neg (by simp [hany])]
    rcases hm : requiredCols.filter
        (fun c => !((splitOn '\t' header).contains c)) with _ | ⟨c, cs⟩
    · exact absurd hm hmiss
    · rfl

/-- C9: a successful append stores `int(meter_reading)` — truncation
toward zero — as the Meter Reading, while the consumption uses
`round(meter_reading − previous_reading)`; for the fractional reading
1100.7 over a previous reading of 1000 the stored reading (1100) and the
reading implied by the stored consumption (1000 + 101 = 1101) disagree. -/
theorem C9_stored_reading_truncation {st : Store} {t : List Char}
    {d : PyDate} {m p : ℚ} {rec : ReadingRecord} {stf : Store}
    (hst : st.content = some t)
    (hok : append_row st d m p = (Except.ok rec, stf)) :
    rec.Zaehlerstand = pyInt m ∧
    (0 ≤ m → pyInt m = ⌊m⌋) ∧
    (m < 0 → pyInt m = ⌈m⌉) ∧
    (∃ df z, load_df t = Except.ok df ∧ lastZaehlerOpt df = some z ∧
      rec.Verbrauch = max 0 (pyRound (m - (z : ℚ)))) ∧
    pyInt (11007/10 : ℚ) ≠
      1000 + max 0 (pyRound ((11007/10 : ℚ) - ((1000 : ℤ) : ℚ))) := by
  obtain ⟨df, z, hdf, hz, hok', hrec, hstf⟩ := append_row_ok_inv hst hok
  subst hrec
  exact ⟨rfl, fun h => pyInt_nonneg_eq_floor h, fun h => pyInt_neg_eq_ceil h,
    ⟨df, z, hdf, hz, rfl⟩, by decide⟩

/-- C9 witness: appending the fractional reading `1100.7` at price `0.32`
to the scenario ledger. -/
theorem C9_witness :
    rec9.Zaehlerstand = pyInt (11007/10 : ℚ) ∧
    (0 ≤ (11007/10 : ℚ) → pyInt (11007/10 : ℚ) = ⌊(11007/10 : ℚ)⌋) ∧
    ((11007/10 : ℚ) < 0 → pyInt (11007/10 : ℚ) = ⌈(11007/10 : ℚ)⌉) ∧
    (∃ df z, load_df ledger1 = Except.ok df ∧ lastZaehlerOpt df = some z ∧
      rec9.Verbrauch = max 0 (pyRound ((11007/10 : ℚ) - (z : ℚ)))) ∧
    pyInt (11007/10 : ℚ) ≠
      1000 + max 0 (pyRound ((11007/10 : ℚ) - ((1000 : ℤ) : ℚ))) :=
  @C9_stored_reading_truncation ⟨some ledger1⟩ ledger1 ⟨2024, 2, 1⟩ (11007/10)
    (32/100) rec9 ⟨some ledger9⟩ rfl (by decide)

/-- C10: both rounding sites use the same `pyRound` (Python's built-in
round): the charge rounding is `pyRound` at scale 100, an exact tie
`n + 1/2` rounds half-to-even to `n + n % 2`, and at the range boundary a
consumption difference of exactly 2000.5 rounds down to the even 2000,
so the append passes the `[10, 2000]` check (half-up rounding would give
2001 and fail it). -/
theorem C10_rounding_mode :
    (∀ q : ℚ, pyRound2 q = (pyRound (q * 100) : ℚ) / 100) ∧
    (∀ n : ℤ, pyRound ((n : ℚ) + 1/2) = n + n % 2) ∧
    max 0 (pyRound ((4001/2 : ℚ))) = 2000 ∧
    (10 ≤ (2000 : ℤ) ∧ (2000 : ℤ) ≤ 2000) ∧
    append_row ⟨some ledger1⟩ ⟨2024, 2, 1⟩ (6001/2 : ℚ) (32/100) =
      (Except.ok ⟨"01.02.2024".data, 3000, 32/100, 2000, 640⟩,
        ⟨some ledger10⟩) :=
  ⟨fun q => rfl, pyRound_half, by decide, by decide, by decide⟩

end ClaimProofs

end Autostrom
